import Mathlib

/-!
Shallow embedding of the xtask developer-workflow CLI.

The CLI shells out to external tools (cargo subcommands, typos, cargo-deny,
cargo-udeps), optionally after a confirmation prompt. We embed the control
flow of `src/crates/xtask-common/src/commands/check.rs`,
`src/crates/tracel-xtask/src/commands/dependencies.rs`,
`src/crates/xtask-common/src/commands/mod.rs` and
`src/crates/xtask-common/src/utils/mod.rs` as pure functions over an
environment `Env` describing the outside world (the answers of the
confirmation prompt, the workspace members, and the outcome of launching each
external process). Each command returns the ordered trace of observable
actions (prompts issued, crate installations, external commands invoked) paired
with its `anyhow::Result<()>` outcome, modelled as `Except String Unit`.
-/

namespace Xtask

/-- Modelled from the spec: the kind of a workspace member. `WorkspaceMemberType`
lives in `utils/workspace.rs`, which is not under `src/`; the spec describes a
workspace-member descriptor selected as library crate or example. -/
inductive WorkspaceMemberType where
  | crate
  | example
deriving DecidableEq, Repr

/-- Modelled from the spec: a workspace-member descriptor read from project
metadata (`get_workspace_members` in `utils/workspace.rs`, not under `src/`).
The check commands consult only the member's `name`; its kind is the
`WorkspaceMemberType` it was queried with. -/
structure WorkspaceMember where
  name : String
deriving DecidableEq, Repr

/-- An observable action of the CLI: a confirmation prompt shown to the user
(`ask_once`), an `ensure_cargo_crate_is_installed` call (which may shell out to
`cargo install`), or the invocation of an external command with its argument
list (`Command::new(prog).args(args).status()` or `run_process`). -/
inductive Event where
  | prompt (msg : String)
  | install (crate : String)
  | exec (prog : String) (args : List String)
deriving DecidableEq, Repr

/-- `anyhow::Result<()>`: either success or an error message. -/
abbrev Res := Except String Unit

instance : DecidableEq Res := fun a b =>
  match a, b with
  | Except.ok _, Except.ok _ => isTrue rfl
  | Except.error x, Except.error y =>
    if h : x = y then isTrue (by rw [h]) else isFalse (by intro hc; cases hc; exact h rfl)
  | Except.ok _, Except.error _ => isFalse (by intro hc; cases hc)
  | Except.error _, Except.ok _ => isFalse (by intro hc; cases hc)

/-- A trace of observable actions together with the command's result. -/
abbrev Run := List Event × Res

/-- The outside world as the commands observe it:
`ask` is what `ask_once` returns for a given prompt message;
`members` is what `get_workspace_members` returns for each member kind;
`launch prog args` is `some e` when spawning the process fails with OS error
`e` (the `Err` case of `Command::status()`), `none` when it launches;
`success prog args` is the exit status of a launched process
(`ExitStatus::success()`);
`install crate` is `some e` when `ensure_cargo_crate_is_installed` fails with
error message `e`;
`nightly` is `is_current_toolchain_nightly()`. -/
structure Env where
  ask : String → Bool
  members : WorkspaceMemberType → List WorkspaceMember
  launch : String → List String → Option String
  success : String → List String → Bool
  install : String → Option String
  nightly : Bool

/-- `if answer.is_none() { answer = Some(ask_once(msg)) }`: resolve an optional
pre-supplied confirmation answer, prompting exactly when it is absent.
Returns the events emitted (one prompt or none) and the resolved answer. -/
def resolveAnswer (env : Env) (msg : String) : Option Bool → List Event × Bool
  | some b => ([], b)
  | none => ([Event.prompt msg], env.ask msg)

/-- `Iterator::try_for_each`: run `f` on each element in order, stopping at the
first error; the trace contains only the elements actually run. -/
def tryForEach : List α → (α → Run) → Run
  | [], _ => ([], Except.ok ())
  | x :: xs, f =>
    match f x with
    | (t, Except.error e) => (t, Except.error e)
    | (t, Except.ok _) =>
      let r := tryForEach xs f
      (t ++ r.1, r.2)

/-- Sequential composition of already-described runs with short-circuiting:
the runs happen in order until the first error, whose message is the overall
result. -/
def chain (rs : List Run) : Run := tryForEach rs id

/-- The result of running two commands one after the other as separate
invocations (both always run): the first error of the two, if any. -/
def firstErr : Res → Res → Res
  | Except.error e, _ => Except.error e
  | Except.ok _, r => r

/-- `ensure_cargo_crate_is_installed(crate, ...)` as a run step. Modelled from
the spec for `utils/cargo.rs` (not under `src/`): it may shell out and can
fail, in which case its error is returned. -/
def installStep (env : Env) (crate : String) : Run :=
  ([Event.install crate],
   match env.install crate with
   | some e => Except.error e
   | none => Except.ok ())

/-- The `Target` enum as the check commands in `check.rs` use it: the match
arms cover `Crates`, `Examples` and `All`, and the default `--target` value of
`CheckCmdArgs` is `Target::All`. Only the relative order of `crates` before
`examples` in the declaration is observable through `Target::iter` after the
filters in `check.rs`. -/
inductive Target where
  | crates
  | examples
  | all
deriving DecidableEq, Repr

/-- `Target::iter()` for the target type used by `check.rs`. -/
def Target.iter : List Target := [Target.crates, Target.examples, Target.all]

/-- strum `Display` with `serialize_all = "lowercase"` for the check target. -/
def Target.toString : Target → String
  | Target.crates => "crates"
  | Target.examples => "examples"
  | Target.all => "all"

/-- The `Target` enumeration as declared in `commands/mod.rs` lines 18-25:
variants `Crates`, `Examples`, `Workspace` (default `Workspace`). -/
inductive ModTarget where
  | crates
  | examples
  | workspace
deriving DecidableEq, Repr

/-- strum `Display` with `serialize_all = "lowercase"` for the declared enum. -/
def ModTarget.toString : ModTarget → String
  | ModTarget.crates => "crates"
  | ModTarget.examples => "examples"
  | ModTarget.workspace => "workspace"

/-- The default `--target` value accepted by the check commands:
`#[arg(..., default_value_t = Target::All)]` in `CheckCmdArgs`. -/
def checkDefaultTarget : Target := Target.all

/-- Argument list of the audit invocation:
`cargo audit -q --color always fix`. -/
def auditArgs : List String := ["audit", "-q", "--color", "always", "fix"]

/-- The `Target::Crates | Target::Examples` arm of `run_audit` (check.rs
lines 89-108): resolve the answer, and if affirmative ensure `cargo-audit` is
installed and run `cargo audit -q --color always fix`, mapping a spawn failure
and a non-zero exit status to errors. -/
def run_audit_ce (env : Env) (answer : Option Bool) : Run :=
  let pa := resolveAnswer env "This will run the audit check with autofix mode enabled." answer
  if pa.2 then
    match env.install "cargo-audit" with
    | some e => (pa.1 ++ [Event.install "cargo-audit"], Except.error e)
    | none =>
      match env.launch "cargo" auditArgs with
      | some e =>
        (pa.1 ++ [Event.install "cargo-audit", Event.exec "cargo" auditArgs],
         Except.error ("Failed to execute cargo audit: " ++ e))
      | none =>
        if env.success "cargo" auditArgs then
          (pa.1 ++ [Event.install "cargo-audit", Event.exec "cargo" auditArgs], Except.ok ())
        else
          (pa.1 ++ [Event.install "cargo-audit", Event.exec "cargo" auditArgs],
           Except.error "Audit check execution failed")
  else (pa.1, Except.ok ())

/-- `run_audit` (check.rs lines 87-119). The `Target::All` arm resolves the
answer, then recurses over `Target::iter()` filtered to exclude `All` and
`Examples`, passing the resolved answer down; the recursive call is unfolded
one level since the filter only yields non-`All` targets. -/
def run_audit (env : Env) (target : Target) (answer : Option Bool) : Run :=
  match target with
  | Target.crates => run_audit_ce env answer
  | Target.examples => run_audit_ce env answer
  | Target.all =>
    let pa := resolveAnswer env "This will run audit checks on all targets." answer
    let r := tryForEach
      (Target.iter.filter (fun p => p != Target.all && p != Target.examples))
      (fun p =>
        match p with
        | Target.crates => run_audit_ce env (some pa.2)
        | Target.examples => run_audit_ce env (some pa.2)
        | Target.all => ([], Except.ok ()))
    (pa.1 ++ r.1, r.2)

/-- Argument list of the per-member format invocation:
`cargo fmt -p <name> -- --color=always`. -/
def fmtArgs (name : String) : List String := ["fmt", "-p", name, "--", "--color=always"]

/-- The member loop of `run_format` (check.rs lines 147-167): skip a member when
it is excluded or when a non-empty only-list does not contain it; otherwise run
`cargo fmt -p <member>`, aborting the remaining members on spawn failure or on a
non-zero exit status with an error naming the member. -/
def run_format_members (env : Env) (excluded only : List String) : List WorkspaceMember → Run
  | [] => ([], Except.ok ())
  | m :: rest =>
    if excluded.contains m.name || (!only.isEmpty && !only.contains m.name) then
      run_format_members env excluded only rest
    else
      match env.launch "cargo" (fmtArgs m.name) with
      | some e =>
        ([Event.exec "cargo" (fmtArgs m.name)],
         Except.error ("Failed to execute cargo fmt: " ++ e))
      | none =>
        if env.success "cargo" (fmtArgs m.name) then
          let r := run_format_members env excluded only rest
          (Event.exec "cargo" (fmtArgs m.name) :: r.1, r.2)
        else
          ([Event.exec "cargo" (fmtArgs m.name)],
           Except.error ("Format check execution failed for " ++ m.name))

/-- The `Target::Crates | Target::Examples` arm of `run_format` (check.rs lines
128-169): fetch the members of the given kind, resolve the answer (the prompt
names "crates" or "examples" through `word`), and if affirmative run the member
loop. -/
def run_format_t (env : Env) (excluded only : List String) (mt : WorkspaceMemberType)
    (word : String) (answer : Option Bool) : Run :=
  let pa := resolveAnswer env
    ("This will run format checks on all " ++ word ++ " of the workspace.") answer
  if pa.2 then
    let r := run_format_members env excluded only (env.members mt)
    (pa.1 ++ r.1, r.2)
  else (pa.1, Except.ok ())

/-- `run_format` (check.rs lines 121-184). The `Target::All` arm resolves the
answer and, if affirmative, recurses over `Target::iter()` without `All`,
passing the resolved answer down; the recursive call is unfolded one level
since the filter only yields non-`All` targets. -/
def run_format (env : Env) (excluded only : List String) (target : Target)
    (answer : Option Bool) : Run :=
  match target with
  | Target.crates => run_format_t env excluded only WorkspaceMemberType.crate "crates" answer
  | Target.examples => run_format_t env excluded only WorkspaceMemberType.example "examples" answer
  | Target.all =>
    let pa := resolveAnswer env "This will run format check on all members of the workspace." answer
    if pa.2 then
      let r := tryForEach (Target.iter.filter (fun t => t != Target.all))
        (fun t =>
          match t with
          | Target.crates =>
            run_format_t env excluded only WorkspaceMemberType.crate "crates" (some pa.2)
          | Target.examples =>
            run_format_t env excluded only WorkspaceMemberType.example "examples" (some pa.2)
          | Target.all => ([], Except.ok ()))
      (pa.1 ++ r.1, r.2)
    else (pa.1, Except.ok ())

/-- Argument list of the per-member lint invocation: `cargo clippy --no-deps
--fix --allow-dirty --allow-staged --color=always -p <name> -- --deny warnings`. -/
def lintArgs (name : String) : List String :=
  ["clippy", "--no-deps", "--fix", "--allow-dirty", "--allow-staged", "--color=always",
   "-p", name, "--", "--deny", "warnings"]

/-- The member loop of `run_lint` (check.rs lines 212-244): same structure as
the format loop, invoking `cargo clippy` and reporting
`Lint fix execution failed for <member>` on a non-zero exit status. -/
def run_lint_members (env : Env) (excluded only : List String) : List WorkspaceMember → Run
  | [] => ([], Except.ok ())
  | m :: rest =>
    if excluded.contains m.name || (!only.isEmpty && !only.contains m.name) then
      run_lint_members env excluded only rest
    else
      match env.launch "cargo" (lintArgs m.name) with
      | some e =>
        ([Event.exec "cargo" (lintArgs m.name)],
         Except.error ("Failed to execute cargo clippy: " ++ e))
      | none =>
        if env.success "cargo" (lintArgs m.name) then
          let r := run_lint_members env excluded only rest
          (Event.exec "cargo" (lintArgs m.name) :: r.1, r.2)
        else
          ([Event.exec "cargo" (lintArgs m.name)],
           Except.error ("Lint fix execution failed for " ++ m.name))

/-- The `Target::Crates | Target::Examples` arm of `run_lint` (check.rs lines
193-245). -/
def run_lint_t (env : Env) (excluded only : List String) (mt : WorkspaceMemberType)
    (word : String) (answer : Option Bool) : Run :=
  let pa := resolveAnswer env
    ("This will run lint fix on all " ++ word ++ " of the workspace.") answer
  if pa.2 then
    let r := run_lint_members env excluded only (env.members mt)
    (pa.1 ++ r.1, r.2)
  else (pa.1, Except.ok ())

/-- `run_lint` (check.rs lines 186-261), with the same shape as `run_format`. -/
def run_lint (env : Env) (excluded only : List String) (target : Target)
    (answer : Option Bool) : Run :=
  match target with
  | Target.crates => run_lint_t env excluded only WorkspaceMemberType.crate "crates" answer
  | Target.examples => run_lint_t env excluded only WorkspaceMemberType.example "examples" answer
  | Target.all =>
    let pa := resolveAnswer env "This will run lint fix on all members of the workspace." answer
    if pa.2 then
      let r := tryForEach (Target.iter.filter (fun t => t != Target.all))
        (fun t =>
          match t with
          | Target.crates =>
            run_lint_t env excluded only WorkspaceMemberType.crate "crates" (some pa.2)
          | Target.examples =>
            run_lint_t env excluded only WorkspaceMemberType.example "examples" (some pa.2)
          | Target.all => ([], Except.ok ()))
      (pa.1 ++ r.1, r.2)
    else (pa.1, Except.ok ())

/-- Argument list of the typos invocation: `typos --write-changes`. -/
def typosArgs : List String := ["--write-changes"]

/-- The `Target::Crates | Target::Examples` arm of `run_typos` (check.rs lines
265-284): ensure `typos-cli` is installed, then run `typos --write-changes`. -/
def run_typos_ce (env : Env) (answer : Option Bool) : Run :=
  let pa := resolveAnswer env
    "This will look for typos in the source code check and auto-fix them." answer
  if pa.2 then
    match env.install "typos-cli" with
    | some e => (pa.1 ++ [Event.install "typos-cli"], Except.error e)
    | none =>
      match env.launch "typos" typosArgs with
      | some e =>
        (pa.1 ++ [Event.install "typos-cli", Event.exec "typos" typosArgs],
         Except.error ("Failed to execute typos: " ++ e))
      | none =>
        if env.success "typos" typosArgs then
          (pa.1 ++ [Event.install "typos-cli", Event.exec "typos" typosArgs], Except.ok ())
        else
          (pa.1 ++ [Event.install "typos-cli", Event.exec "typos" typosArgs],
           Except.error "Some typos have been found and cannot be fixed.")
  else (pa.1, Except.ok ())

/-- `run_typos` (check.rs lines 263-295), with the same `All` recursion as
`run_audit` (filtering out both `All` and `Examples`). -/
def run_typos (env : Env) (target : Target) (answer : Option Bool) : Run :=
  match target with
  | Target.crates => run_typos_ce env answer
  | Target.examples => run_typos_ce env answer
  | Target.all =>
    let pa := resolveAnswer env "This will look for typos on all targets." answer
    let r := tryForEach
      (Target.iter.filter (fun p => p != Target.all && p != Target.examples))
      (fun p =>
        match p with
        | Target.crates => run_typos_ce env (some pa.2)
        | Target.examples => run_typos_ce env (some pa.2)
        | Target.all => ([], Except.ok ()))
    (pa.1 ++ r.1, r.2)

/-- `CheckCommand` (check.rs lines 45-58): Audit, Format, Lint, Typos, All,
in declaration order. -/
inductive CheckCommand where
  | audit
  | format
  | lint
  | typos
  | all
deriving DecidableEq, Repr

/-- `CheckCommand::iter()`, in declaration order. -/
def CheckCommand.iter : List CheckCommand :=
  [CheckCommand.audit, CheckCommand.format, CheckCommand.lint, CheckCommand.typos,
   CheckCommand.all]

/-- `CheckCmdArgs` (check.rs lines 18-43): the `--target`, `--exclude` and
`--only` flags plus the subcommand. -/
structure CheckCmdArgs where
  target : Target
  exclude : List String
  only : List String
  command : CheckCommand
deriving DecidableEq, Repr

/-- The clap long-flag names derived from the option fields of `CheckCmdArgs`:
`target` (short `-t`), `exclude` (short `-x`) and `only` (short `-n`). -/
def checkCmdFlagNames : List String := ["target", "exclude", "only"]

/-- The prompt message of the `CheckCommand::All` arm of `handle_command`. -/
def checkAllMsg : String :=
  "This will run all the checks with autofix on all members of the workspace."

/-- The non-`All` dispatch of `handle_command` (check.rs lines 62-65); the
`All` entry is never reached by the aggregate, which filters it out. -/
def handle_base (env : Env) (args : CheckCmdArgs) (answer : Option Bool) : Run :=
  match args.command with
  | CheckCommand.audit => run_audit env args.target answer
  | CheckCommand.format => run_format env args.exclude args.only args.target answer
  | CheckCommand.lint => run_lint env args.exclude args.only args.target answer
  | CheckCommand.typos => run_typos env args.target answer
  | CheckCommand.all => ([], Except.ok ())

/-- `handle_command` for the check family (check.rs lines 60-85). The `All`
arm calls `ask_once` unconditionally (ignoring the incoming answer), then runs
every other subcommand in `CheckCommand::iter()` order with the obtained
answer, stopping at the first error; the recursive call is unfolded one level
(`handle_base`) since the filter only yields non-`All` commands. -/
def handle_command (env : Env) (args : CheckCmdArgs) (answer : Option Bool) : Run :=
  match args.command with
  | CheckCommand.all =>
    let a := env.ask checkAllMsg
    let r := tryForEach (CheckCommand.iter.filter (fun c => c != CheckCommand.all))
      (fun c =>
        handle_base env
          { command := c, target := args.target, exclude := args.exclude, only := args.only }
          (some a))
    (Event.prompt checkAllMsg :: r.1, r.2)
  | _ => handle_base env args answer

/-- Modelled from the spec: `run_process` (`utils/process.rs`, not under
`src/`) is the process-invocation helper that runs an external binary and maps
its exit code to success/failure, reporting the given message on a non-zero
exit and the OS error on a spawn failure. -/
def run_process (env : Env) (prog : String) (args : List String) (errMsg : String) : Run :=
  ([Event.exec prog args],
   match env.launch prog args with
   | some e => Except.error e
   | none => if env.success prog args then Except.ok () else Except.error errMsg)

namespace Dependencies

/-- `DependenciesSubCommand`: Deny, Unused, All. Modelled from the spec for its
declaration order: the enum is generated by the `declare_command_args` macro
(`tracel_xtask_macros`, not under `src/`); the spec lists the dependencies
family as "deny/unused/all". -/
inductive SubCommand where
  | deny
  | unused
  | all
deriving DecidableEq, Repr

/-- `DependenciesSubCommand::iter()`, in the modelled declaration order. -/
def SubCommand.iter : List SubCommand := [SubCommand.deny, SubCommand.unused, SubCommand.all]

/-- `DependenciesCmdArgs`: by the struct literal
`DependenciesCmdArgs { command: Some(c) }` in dependencies.rs line 22, the
struct has exactly one field, the optional subcommand; in particular it has no
target, exclude or only fields. -/
structure CmdArgs where
  command : Option SubCommand
deriving DecidableEq, Repr

/-- `args.get_command()`. Modelled from the spec: the accessor is generated by
the `declare_command_args` macro (not under `src/`); it returns the stored
subcommand. The default used when the field is `none` is not observable in the
claims below, which always pass `some`. -/
def CmdArgs.get_command (args : CmdArgs) : SubCommand := args.command.getD SubCommand.all

/-- The long-flag names of the option fields of `DependenciesCmdArgs`: none,
since its only field is the (positional) subcommand. -/
def dependenciesCmdFlagNames : List String := []

/-- `run_cargo_deny` (dependencies.rs lines 27-40): ensure `cargo-deny` is
installed, then `cargo deny check`. -/
def run_cargo_deny (env : Env) : Run :=
  match env.install "cargo-deny" with
  | some e => ([Event.install "cargo-deny"], Except.error e)
  | none =>
    let r := run_process env "cargo" ["deny", "check"]
      "Some dependencies don\x27t meet the requirements!"
    (Event.install "cargo-deny" :: r.1, r.2)

/-- `run_cargo_udeps` (dependencies.rs lines 43-60): on a nightly toolchain,
ensure `cargo-udeps` is installed and run `cargo udeps`; otherwise only log the
nightly advice (`error!`, not an external invocation) and return `Ok(())`. -/
def run_cargo_udeps (env : Env) : Run :=
  if env.nightly then
    match env.install "cargo-udeps" with
    | some e => ([Event.install "cargo-udeps"], Except.error e)
    | none =>
      let r := run_process env "cargo" ["udeps"] "Unused dependencies found!"
      (Event.install "cargo-udeps" :: r.1, r.2)
  else ([], Except.ok ())

/-- `handle_command` for the dependencies family (dependencies.rs lines 16-24):
Deny and Unused dispatch directly; All runs every other subcommand in
iteration order, stopping at the first error; the recursive call
`handle_command (CmdArgs { command: Some(c) })` is unfolded one level since
the filter only yields non-`All` subcommands. -/
def handle_command (env : Env) (args : CmdArgs) : Run :=
  match args.get_command with
  | SubCommand.deny => run_cargo_deny env
  | SubCommand.unused => run_cargo_udeps env
  | SubCommand.all =>
    tryForEach (SubCommand.iter.filter (fun c => c != SubCommand.all))
      (fun c =>
        match c with
        | SubCommand.deny => run_cargo_deny env
        | SubCommand.unused => run_cargo_udeps env
        | SubCommand.all => ([], Except.ok ()))

end Dependencies

/-- `Params` (utils/mod.rs lines 11-14): a list of command-line parameters. -/
structure Params where
  params : List String
deriving DecidableEq, Repr

/-- `impl Add for Params` (utils/mod.rs lines 46-54): `self.params.extend(rhs.params)`,
i.e. list concatenation. -/
def Params.add (p q : Params) : Params := Params.mk (p.params ++ q.params)

/-- Rust's `[String]::join(" ")`: the elements separated by single spaces. -/
def joinSpace : List String → String
  | [] => ""
  | [s] => s
  | s :: rest => s ++ " " ++ joinSpace rest

/-- `impl Display for Params` (utils/mod.rs lines 40-44):
`f.write_str(self.params.join(" ").as_str())`. -/
def Params.fmt (p : Params) : String := joinSpace p.params

/-- Whether an event is a confirmation prompt. -/
def Event.isPrompt : Event → Bool
  | Event.prompt _ => true
  | _ => false

/-- Whether an event is an external invocation (an installation check or a
command execution), as opposed to a prompt. -/
def Event.isExternal : Event → Bool
  | Event.prompt _ => false
  | _ => true

/-- The member filter of `run_format` and `run_lint` (check.rs lines 149-151
and 214-216), as the predicate for processing rather than skipping: the member
is not excluded, and when the only-list is non-empty it contains the member. -/
def selected (excluded only : List String) (name : String) : Bool :=
  !(excluded.contains name) && (only.isEmpty || only.contains name)

/-- An environment in which no external step fails: every installation
succeeds, every process launches, and every process exits successfully. -/
def NoFail (env : Env) : Prop :=
  (∀ c, env.install c = none) ∧ (∀ p a, env.launch p a = none) ∧
  (∀ p a, env.success p a = true)

/-- A concrete environment: every prompt is answered yes, the workspace has
crates `alpha`, `beta` and example `demo`, and every external step succeeds. -/
def env0 : Env where
  ask := fun _ => true
  members := fun mt =>
    match mt with
    | WorkspaceMemberType.crate => [WorkspaceMember.mk "alpha", WorkspaceMember.mk "beta"]
    | WorkspaceMemberType.example => [WorkspaceMember.mk "demo"]
  launch := fun _ _ => none
  success := fun _ _ => true
  install := fun _ => none
  nightly := true

/-- A concrete environment in which exactly the external commands whose
argument list mentions `beta` exit with a non-zero status. -/
def envFail : Env where
  ask := fun _ => true
  members := fun _ => [WorkspaceMember.mk "alpha", WorkspaceMember.mk "beta"]
  launch := fun _ _ => none
  success := fun _ args => !(args.contains "beta")
  install := fun _ => none
  nightly := true

/-- A concrete environment in which every prompt is answered no. -/
def envNo : Env :=
  { env0 with ask := fun _ => false }

/-- A concrete environment whose toolchain is not nightly. -/
def envNoNightly : Env :=
  { env0 with nightly := false }

theorem joinSpace_append (xs ys : List String) (hx : xs ≠ []) (hy : ys ≠ []) :
    joinSpace (xs ++ ys) = joinSpace xs ++ " " ++ joinSpace ys := by
  induction xs with
  | nil => exact absurd rfl hx
  | cons x xs ih =>
    cases xs with
    | nil =>
      cases ys with
      | nil => exact absurd rfl hy
      | cons y ys => simp [joinSpace]
    | cons x2 xs2 =>
      have h := ih (by simp)
      have e1 : joinSpace ((x :: x2 :: xs2) ++ ys) = x ++ " " ++ joinSpace ((x2 :: xs2) ++ ys) := rfl
      have e2 : joinSpace (x :: x2 :: xs2) = x ++ " " ++ joinSpace (x2 :: xs2) := rfl
      rw [e1, e2, h]
      simp [String.append_assoc]

/-- C10: the `Add` implementation of `Params` concatenates the parameter lists,
and when both lists are non-empty the `Display` rendering of the sum is the
rendering of the left operand, a space, then the rendering of the right
operand. -/
theorem claim_C10 (p q : Params) :
    (Params.add p q).params = p.params ++ q.params ∧
    (p.params ≠ [] → q.params ≠ [] →
      (Params.add p q).fmt = p.fmt ++ " " ++ q.fmt) := by
  refine ⟨rfl, fun hp hq => ?_⟩
  exact joinSpace_append p.params q.params hp hq

theorem claim_C10_witness :
    (Params.add (Params.mk ["a", "b"]) (Params.mk ["c"])).fmt =
      (Params.mk ["a", "b"]).fmt ++ " " ++ (Params.mk ["c"]).fmt :=
  (claim_C10 (Params.mk ["a", "b"]) (Params.mk ["c"])).2 (by decide) (by decide)

/-- C9: on a non-nightly toolchain, `run_cargo_udeps` returns `Ok(())` without
invoking anything (it only logs the nightly advice), so the dependencies `all`
aggregate behaves exactly like `run_cargo_deny` alone. -/
theorem claim_C9 (env : Env) (h : env.nightly = false) :
    Dependencies.run_cargo_udeps env = ([], Except.ok ()) ∧
    Dependencies.handle_command env (Dependencies.CmdArgs.mk (some Dependencies.SubCommand.all)) =
      Dependencies.run_cargo_deny env := by
  have hu : Dependencies.run_cargo_udeps env = ([], Except.ok ()) := by
    simp [Dependencies.run_cargo_udeps, h]
  refine ⟨hu, ?_⟩
  show tryForEach _ _ = _
  rcases hd : Dependencies.run_cargo_deny env with ⟨t, r⟩
  cases r with
  | error e =>
    simp [Dependencies.SubCommand.iter, tryForEach, hd]
  | ok u =>
    cases u
    simp [Dependencies.SubCommand.iter, tryForEach, hd, hu]

theorem claim_C9_witness :
    Dependencies.run_cargo_udeps envNoNightly = ([], Except.ok ()) ∧
    Dependencies.handle_command envNoNightly
        (Dependencies.CmdArgs.mk (some Dependencies.SubCommand.all)) =
      Dependencies.run_cargo_deny envNoNightly :=
  claim_C9 envNoNightly rfl

theorem claim_C4_cex :
    checkDefaultTarget = Target.all ∧
    Target.toString checkDefaultTarget ≠ ModTarget.toString ModTarget.crates ∧
    Target.toString checkDefaultTarget ≠ ModTarget.toString ModTarget.examples ∧
    Target.toString checkDefaultTarget ≠ ModTarget.toString ModTarget.workspace := by
  decide

/-- C4 (amended): the `Target` enumeration declared in commands/mod.rs has
exactly the three values Crates, Examples, Workspace; but the target type the
check commands accept and match consists of Crates, Examples and All: the
default `--target` value is All, which is none of the three declared values
(and Workspace is never matched by check.rs). -/
theorem claim_C4 :
    (∀ t : ModTarget,
      t = ModTarget.crates ∨ t = ModTarget.examples ∨ t = ModTarget.workspace) ∧
    (∀ t : Target, t = Target.crates ∨ t = Target.examples ∨ t = Target.all) ∧
    checkDefaultTarget = Target.all := by
  refine ⟨fun t => ?_, fun t => ?_, rfl⟩
  · cases t
    · exact Or.inl rfl
    · exact Or.inr (Or.inl rfl)
    · exact Or.inr (Or.inr rfl)
  · cases t
    · exact Or.inl rfl
    · exact Or.inr (Or.inl rfl)
    · exact Or.inr (Or.inr rfl)

theorem claim_C7_cex :
    "target" ∈ checkCmdFlagNames ∧
    "target" ∉ Dependencies.dependenciesCmdFlagNames := by
  decide

/-- C7 (amended): the check family's argument structure consists exactly of the
`--target`, `--exclude`, `--only` flags and its subcommand, while the
dependencies family's argument structure consists of its subcommand alone, with
no target/exclude/only flags. -/
theorem claim_C7 :
    (∀ a b : CheckCmdArgs, a.target = b.target → a.exclude = b.exclude →
      a.only = b.only → a.command = b.command → a = b) ∧
    (∀ a b : Dependencies.CmdArgs, a.command = b.command → a = b) := by
  constructor
  · intro a b h1 h2 h3 h4
    cases a
    cases b
    simp_all
  · intro a b h1
    cases a
    cases b
    simp_all

theorem claim_C7_witness :
    CheckCmdArgs.mk Target.all [] [] CheckCommand.audit =
      CheckCmdArgs.mk Target.all [] [] CheckCommand.audit ∧
    Dependencies.CmdArgs.mk (some Dependencies.SubCommand.deny) =
      Dependencies.CmdArgs.mk (some Dependencies.SubCommand.deny) :=
  ⟨claim_C7.1 (CheckCmdArgs.mk Target.all [] [] CheckCommand.audit)
      (CheckCmdArgs.mk Target.all [] [] CheckCommand.audit) rfl rfl rfl rfl,
   claim_C7.2 (Dependencies.CmdArgs.mk (some Dependencies.SubCommand.deny))
      (Dependencies.CmdArgs.mk (some Dependencies.SubCommand.deny)) rfl⟩

/-- C2: `handle_command` with `CheckCommand::All` prompts once and then runs
Audit, Format, Lint, Typos in exactly that declared order (excluding All) with
the obtained answer, and `handle_command` with `DependenciesSubCommand::All`
runs Deny then Unused; both are the `chain` of their sub-runs, and `chain`
short-circuits: a sub-run returning an error ends the chain with that error and
the remaining sub-runs do not happen, while a succeeding sub-run is followed by
the rest of the chain. -/
theorem claim_C2 (env : Env) (t : Target) (excluded only : List String)
    (answer : Option Bool) :
    (handle_command env (CheckCmdArgs.mk t excluded only CheckCommand.all) answer =
      (Event.prompt checkAllMsg ::
        (chain [run_audit env t (some (env.ask checkAllMsg)),
                run_format env excluded only t (some (env.ask checkAllMsg)),
                run_lint env excluded only t (some (env.ask checkAllMsg)),
                run_typos env t (some (env.ask checkAllMsg))]).1,
       (chain [run_audit env t (some (env.ask checkAllMsg)),
               run_format env excluded only t (some (env.ask checkAllMsg)),
               run_lint env excluded only t (some (env.ask checkAllMsg)),
               run_typos env t (some (env.ask checkAllMsg))]).2)) ∧
    (Dependencies.handle_command env
        (Dependencies.CmdArgs.mk (some Dependencies.SubCommand.all)) =
      chain [Dependencies.run_cargo_deny env, Dependencies.run_cargo_udeps env]) ∧
    (∀ (r : Run) (rs : List Run) (e : String), r.2 = Except.error e →
      chain (r :: rs) = (r.1, Except.error e)) ∧
    (∀ (r : Run) (rs : List Run), r.2 = Except.ok () →
      chain (r :: rs) = (r.1 ++ (chain rs).1, (chain rs).2)) := by
  refine ⟨rfl, rfl, ?_, ?_⟩
  · intro r rs e h
    rcases r with ⟨tr, res⟩
    cases res with
    | error e2 =>
      cases h
      simp [chain, tryForEach]
    | ok u => cases h
  · intro r rs h
    rcases r with ⟨tr, res⟩
    cases res with
    | error e2 => cases h
    | ok u =>
      cases u
      simp [chain, tryForEach]

theorem claim_C2_witness :
    chain [(([Event.install "cargo-deny"], Except.error "boom") : Run),
           (([], Except.ok ()) : Run)] =
      ([Event.install "cargo-deny"], Except.error "boom") :=
  (claim_C2 env0 Target.all [] [] none).2.2.1
    ([Event.install "cargo-deny"], Except.error "boom") [([], Except.ok ())] "boom" rfl

theorem firstErr_self (r : Res) : firstErr r r = r := by
  cases r with
  | error e => rfl
  | ok u => rfl

theorem audit_filter_eq :
    Target.iter.filter (fun p => p != Target.all && p != Target.examples) = [Target.crates] := by
  decide

theorem nonall_filter_eq :
    Target.iter.filter (fun t => t != Target.all) = [Target.crates, Target.examples] := by
  decide

theorem run_audit_all_eq (env : Env) (a : Bool) :
    run_audit env Target.all (some a) = run_audit_ce env (some a) := by
  rcases h : run_audit_ce env (some a) with ⟨t, r⟩
  cases r with
  | error e => simp [run_audit, resolveAnswer, audit_filter_eq, tryForEach, h]
  | ok u =>
    cases u
    simp [run_audit, resolveAnswer, audit_filter_eq, tryForEach, h]

theorem run_typos_all_eq (env : Env) (a : Bool) :
    run_typos env Target.all (some a) = run_typos_ce env (some a) := by
  rcases h : run_typos_ce env (some a) with ⟨t, r⟩
  cases r with
  | error e => simp [run_typos, resolveAnswer, audit_filter_eq, tryForEach, h]
  | ok u =>
    cases u
    simp [run_typos, resolveAnswer, audit_filter_eq, tryForEach, h]

theorem run_format_all_spec (env : Env) (excluded only : List String) (a : Bool) :
    ((run_format env excluded only Target.all (some a)).2 =
      firstErr (run_format_t env excluded only WorkspaceMemberType.crate "crates" (some a)).2
        (run_format_t env excluded only WorkspaceMemberType.example "examples" (some a)).2) ∧
    ((run_format_t env excluded only WorkspaceMemberType.crate "crates" (some a)).2 =
        Except.ok () →
      (run_format env excluded only Target.all (some a)).1 =
        (run_format_t env excluded only WorkspaceMemberType.crate "crates" (some a)).1 ++
        (run_format_t env excluded only WorkspaceMemberType.example "examples" (some a)).1) := by
  cases a with
  | false =>
    exact ⟨rfl, fun _ => rfl⟩
  | true =>
    rcases h1 : run_format_t env excluded only WorkspaceMemberType.crate "crates" (some true)
      with ⟨t1, r1⟩
    cases r1 with
    | error e =>
      constructor
      · simp [run_format, resolveAnswer, nonall_filter_eq, tryForEach, h1, firstErr]
      · intro hc
        simp at hc
    | ok u =>
      cases u
      rcases h2 : run_format_t env excluded only WorkspaceMemberType.example "examples" (some true)
        with ⟨t2, r2⟩
      cases r2 with
      | error e =>
        constructor
        · simp [run_format, resolveAnswer, nonall_filter_eq, tryForEach, h1, h2, firstErr]
        · intro _
          simp [run_format, resolveAnswer, nonall_filter_eq, tryForEach, h1, h2]
      | ok u2 =>
        cases u2
        constructor
        · simp [run_format, resolveAnswer, nonall_filter_eq, tryForEach, h1, h2, firstErr]
        · intro _
          simp [run_format, resolveAnswer, nonall_filter_eq, tryForEach, h1, h2]

theorem run_lint_all_spec (env : Env) (excluded only : List String) (a : Bool) :
    ((run_lint env excluded only Target.all (some a)).2 =
      firstErr (run_lint_t env excluded only WorkspaceMemberType.crate "crates" (some a)).2
        (run_lint_t env excluded only WorkspaceMemberType.example "examples" (some a)).2) ∧
    ((run_lint_t env excluded only WorkspaceMemberType.crate "crates" (some a)).2 =
        Except.ok () →
      (run_lint env excluded only Target.all (some a)).1 =
        (run_lint_t env excluded only WorkspaceMemberType.crate "crates" (some a)).1 ++
        (run_lint_t env excluded only WorkspaceMemberType.example "examples" (some a)).1) := by
  cases a with
  | false =>
    exact ⟨rfl, fun _ => rfl⟩
  | true =>
    rcases h1 : run_lint_t env excluded only WorkspaceMemberType.crate "crates" (some true)
      with ⟨t1, r1⟩
    cases r1 with
    | error e =>
      constructor
      · simp [run_lint, resolveAnswer, nonall_filter_eq, tryForEach, h1, firstErr]
      · intro hc
        simp at hc
    | ok u =>
      cases u
      rcases h2 : run_lint_t env excluded only WorkspaceMemberType.example "examples" (some true)
        with ⟨t2, r2⟩
      cases r2 with
      | error e =>
        constructor
        · simp [run_lint, resolveAnswer, nonall_filter_eq, tryForEach, h1, h2, firstErr]
        · intro _
          simp [run_lint, resolveAnswer, nonall_filter_eq, tryForEach, h1, h2]
      | ok u2 =>
        cases u2
        constructor
        · simp [run_lint, resolveAnswer, nonall_filter_eq, tryForEach, h1, h2, firstErr]
        · intro _
          simp [run_lint, resolveAnswer, nonall_filter_eq, tryForEach, h1, h2]

theorem claim_C1_cex :
    (run_audit env0 Target.all (some true)).1 ≠
      (run_audit env0 Target.crates (some true)).1 ++
      (run_audit env0 Target.examples (some true)).1 := by
  decide

/-- C1 (amended): given the same explicit confirmation answer, for format and
lint the result of Target::All is the first error of the Target::Crates run
followed by the Target::Examples run, and when the crates phase succeeds the
invocations of All are exactly those of Crates followed by those of Examples
(when the crates phase fails, All stops without running the examples phase);
for audit and typos, which invoke one workspace-global tool, All performs the
single global check once — it is identical to the Crates run alone (and to the
Examples run alone) rather than their concatenation — and its result still
equals the first error of the two runs. -/
theorem claim_C1 (env : Env) (excluded only : List String) (a : Bool) :
    ((run_format env excluded only Target.all (some a)).2 =
      firstErr (run_format env excluded only Target.crates (some a)).2
        (run_format env excluded only Target.examples (some a)).2) ∧
    ((run_format env excluded only Target.crates (some a)).2 = Except.ok () →
      (run_format env excluded only Target.all (some a)).1 =
        (run_format env excluded only Target.crates (some a)).1 ++
        (run_format env excluded only Target.examples (some a)).1) ∧
    ((run_lint env excluded only Target.all (some a)).2 =
      firstErr (run_lint env excluded only Target.crates (some a)).2
        (run_lint env excluded only Target.examples (some a)).2) ∧
    ((run_lint env excluded only Target.crates (some a)).2 = Except.ok () →
      (run_lint env excluded only Target.all (some a)).1 =
        (run_lint env excluded only Target.crates (some a)).1 ++
        (run_lint env excluded only Target.examples (some a)).1) ∧
    (run_audit env Target.all (some a) = run_audit env Target.crates (some a)) ∧
    ((run_audit env Target.all (some a)).2 =
      firstErr (run_audit env Target.crates (some a)).2
        (run_audit env Target.examples (some a)).2) ∧
    (run_typos env Target.all (some a) = run_typos env Target.crates (some a)) ∧
    ((run_typos env Target.all (some a)).2 =
      firstErr (run_typos env Target.crates (some a)).2
        (run_typos env Target.examples (some a)).2) := by
  refine ⟨(run_format_all_spec env excluded only a).1,
    (run_format_all_spec env excluded only a).2,
    (run_lint_all_spec env excluded only a).1,
    (run_lint_all_spec env excluded only a).2,
    run_audit_all_eq env a, ?_, run_typos_all_eq env a, ?_⟩
  · rw [run_audit_all_eq env a]
    show (run_audit_ce env (some a)).2 =
      firstErr (run_audit_ce env (some a)).2 (run_audit_ce env (some a)).2
    rw [firstErr_self]
  · rw [run_typos_all_eq env a]
    show (run_typos_ce env (some a)).2 =
      firstErr (run_typos_ce env (some a)).2 (run_typos_ce env (some a)).2
    rw [firstErr_self]

theorem claim_C1_witness :
    (run_format env0 [] [] Target.all (some true)).1 =
      (run_format env0 [] [] Target.crates (some true)).1 ++
      (run_format env0 [] [] Target.examples (some true)).1 :=
  (claim_C1 env0 [] [] true).2.1 (by decide)

theorem skip_eq (excluded only : List String) (n : String) :
    (excluded.contains n || (!only.isEmpty && !only.contains n)) =
      !(selected excluded only n) := by
  cases hc : excluded.contains n <;> cases he : only.isEmpty <;>
    cases ho : only.contains n <;> simp only [selected, hc, he, ho] <;> rfl

theorem run_format_members_filter (env : Env) (excluded only : List String)
    (ms : List WorkspaceMember) :
    run_format_members env excluded only ms =
      run_format_members env excluded only
        (ms.filter (fun m => selected excluded only m.name)) := by
  induction ms with
  | nil => rfl
  | cons m rest ih =>
    cases hsel : selected excluded only m.name with
    | false =>
      have hskip : (excluded.contains m.name || (!only.isEmpty && !only.contains m.name)) = true := by
        rw [skip_eq, hsel]
        rfl
      have hfil : List.filter (fun m => selected excluded only m.name) (m :: rest)
          = List.filter (fun m => selected excluded only m.name) rest := by
        rw [List.filter_cons]
        simp [hsel]
      rw [hfil]
      simp only [run_format_members]
      rw [hskip]
      simp [ih]
    | true =>
      have hskip : (excluded.contains m.name || (!only.isEmpty && !only.contains m.name)) = false := by
        rw [skip_eq, hsel]
        rfl
      have hfil : List.filter (fun m => selected excluded only m.name) (m :: rest)
          = m :: List.filter (fun m => selected excluded only m.name) rest := by
        rw [List.filter_cons]
        simp [hsel]
      rw [hfil]
      simp only [run_format_members]
      rw [hskip]
      cases hl : env.launch "cargo" (fmtArgs m.name) with
      | some e => simp [hl]
      | none =>
        cases hs : env.success "cargo" (fmtArgs m.name) with
        | false => simp [hl, hs]
        | true => simp [hl, hs, ih]

theorem run_lint_members_filter (env : Env) (excluded only : List String)
    (ms : List WorkspaceMember) :
    run_lint_members env excluded only ms =
      run_lint_members env excluded only
        (ms.filter (fun m => selected excluded only m.name)) := by
  induction ms with
  | nil => rfl
  | cons m rest ih =>
    cases hsel : selected excluded only m.name with
    | false =>
      have hskip : (excluded.contains m.name || (!only.isEmpty && !only.contains m.name)) = true := by
        rw [skip_eq, hsel]
        rfl
      have hfil : List.filter (fun m => selected excluded only m.name) (m :: rest)
          = List.filter (fun m => selected excluded only m.name) rest := by
        rw [List.filter_cons]
        simp [hsel]
      rw [hfil]
      simp only [run_lint_members]
      rw [hskip]
      simp [ih]
    | true =>
      have hskip : (excluded.contains m.name || (!only.isEmpty && !only.contains m.name)) = false := by
        rw [skip_eq, hsel]
        rfl
      have hfil : List.filter (fun m => selected excluded only m.name) (m :: rest)
          = m :: List.filter (fun m => selected excluded only m.name) rest := by
        rw [List.filter_cons]
        simp [hsel]
      rw [hfil]
      simp only [run_lint_members]
      rw [hskip]
      cases hl : env.launch "cargo" (lintArgs m.name) with
      | some e => simp [hl]
      | none =>
        cases hs : env.success "cargo" (lintArgs m.name) with
        | false => simp [hl, hs]
        | true => simp [hl, hs, ih]

theorem run_format_members_noFail (env : Env) (hnf : NoFail env)
    (excluded only : List String) (ms : List WorkspaceMember) :
    run_format_members env excluded only ms =
      ((ms.filter (fun m => selected excluded only m.name)).map
        (fun m => Event.exec "cargo" (fmtArgs m.name)), Except.ok ()) := by
  induction ms with
  | nil => rfl
  | cons m rest ih =>
    cases hsel : selected excluded only m.name with
    | false =>
      have hskip : (excluded.contains m.name || (!only.isEmpty && !only.contains m.name)) = true := by
        rw [skip_eq, hsel]
        rfl
      have hfil : List.filter (fun m => selected excluded only m.name) (m :: rest)
          = List.filter (fun m => selected excluded only m.name) rest := by
        rw [List.filter_cons]
        simp [hsel]
      rw [hfil]
      simp only [run_format_members]
      rw [hskip]
      simp [ih]
    | true =>
      have hskip : (excluded.contains m.name || (!only.isEmpty && !only.contains m.name)) = false := by
        rw [skip_eq, hsel]
        rfl
      have hfil : List.filter (fun m => selected excluded only m.name) (m :: rest)
          = m :: List.filter (fun m => selected excluded only m.name) rest := by
        rw [List.filter_cons]
        simp [hsel]
      rw [hfil]
      simp only [run_format_members]
      rw [hskip, hnf.2.1, hnf.2.2]
      simp [ih]

theorem run_lint_members_noFail (env : Env) (hnf : NoFail env)
    (excluded only : List String) (ms : List WorkspaceMember) :
    run_lint_members env excluded only ms =
      ((ms.filter (fun m => selected excluded only m.name)).map
        (fun m => Event.exec "cargo" (lintArgs m.name)), Except.ok ()) := by
  induction ms with
  | nil => rfl
  | cons m rest ih =>
    cases hsel : selected excluded only m.name with
    | false =>
      have hskip : (excluded.contains m.name || (!only.isEmpty && !only.contains m.name)) = true := by
        rw [skip_eq, hsel]
        rfl
      have hfil : List.filter (fun m => selected excluded only m.name) (m :: rest)
          = List.filter (fun m => selected excluded only m.name) rest := by
        rw [List.filter_cons]
        simp [hsel]
      rw [hfil]
      simp only [run_lint_members]
      rw [hskip]
      simp [ih]
    | true =>
      have hskip : (excluded.contains m.name || (!only.isEmpty && !only.contains m.name)) = false := by
        rw [skip_eq, hsel]
        rfl
      have hfil : List.filter (fun m => selected excluded only m.name) (m :: rest)
          = m :: List.filter (fun m => selected excluded only m.name) rest := by
        rw [List.filter_cons]
        simp [hsel]
      rw [hfil]
      simp only [run_lint_members]
      rw [hskip, hnf.2.1, hnf.2.2]
      simp [ih]

/-- C3: the format and lint member loops process a member if and only if it is
not excluded and, when the only-list is non-empty, it is contained in it: the
loops behave exactly as on the selected sublist; when no external step fails
they invoke the external command precisely once per selected member in order
and succeed; and a skipped member alone causes no invocation and no error. -/
theorem claim_C3 (env : Env) (excluded only : List String) (ms : List WorkspaceMember) :
    (run_format_members env excluded only ms =
      run_format_members env excluded only
        (ms.filter (fun m => selected excluded only m.name))) ∧
    (run_lint_members env excluded only ms =
      run_lint_members env excluded only
        (ms.filter (fun m => selected excluded only m.name))) ∧
    (NoFail env →
      run_format_members env excluded only ms =
        ((ms.filter (fun m => selected excluded only m.name)).map
          (fun m => Event.exec "cargo" (fmtArgs m.name)), Except.ok ()) ∧
      run_lint_members env excluded only ms =
        ((ms.filter (fun m => selected excluded only m.name)).map
          (fun m => Event.exec "cargo" (lintArgs m.name)), Except.ok ())) ∧
    (∀ m : WorkspaceMember, selected excluded only m.name = false →
      run_format_members env excluded only [m] = ([], Except.ok ()) ∧
      run_lint_members env excluded only [m] = ([], Except.ok ())) := by
  refine ⟨run_format_members_filter env excluded only ms,
    run_lint_members_filter env excluded only ms,
    fun hnf => ⟨run_format_members_noFail env hnf excluded only ms,
      run_lint_members_noFail env hnf excluded only ms⟩,
    fun m hsel => ?_⟩
  have hskip : (excluded.contains m.name || (!only.isEmpty && !only.contains m.name)) = true := by
    rw [skip_eq, hsel]
    rfl
  constructor
  · simp only [run_format_members]
    rw [hskip]
    simp [run_format_members]
  · simp only [run_lint_members]
    rw [hskip]
    simp [run_lint_members]

theorem claim_C3_witness :
    run_format_members env0 ["beta"] []
        [WorkspaceMember.mk "alpha", WorkspaceMember.mk "beta"] =
      (([WorkspaceMember.mk "alpha", WorkspaceMember.mk "beta"].filter
          (fun m => selected ["beta"] [] m.name)).map
        (fun m => Event.exec "cargo" (fmtArgs m.name)), Except.ok ()) :=
  ((claim_C3 env0 ["beta"] []
      [WorkspaceMember.mk "alpha", WorkspaceMember.mk "beta"]).2.2.1
    ⟨fun _ => rfl, fun _ _ => rfl, fun _ _ => rfl⟩).1

theorem run_format_members_fail (env : Env) (excluded only : List String)
    (m : WorkspaceMember) (post : List WorkspaceMember)
    (hm : selected excluded only m.name = true)
    (hl : env.launch "cargo" (fmtArgs m.name) = none)
    (hs : env.success "cargo" (fmtArgs m.name) = false) :
    ∀ pre : List WorkspaceMember,
      (∀ p ∈ pre, selected excluded only p.name = true →
        env.launch "cargo" (fmtArgs p.name) = none ∧
        env.success "cargo" (fmtArgs p.name) = true) →
      run_format_members env excluded only (pre ++ m :: post) =
        ((pre.filter (fun p => selected excluded only p.name)).map
            (fun p => Event.exec "cargo" (fmtArgs p.name)) ++
          [Event.exec "cargo" (fmtArgs m.name)],
         Except.error ("Format check execution failed for " ++ m.name)) := by
  intro pre
  induction pre with
  | nil =>
    intro _
    have hskip : (excluded.contains m.name || (!only.isEmpty && !only.contains m.name)) = false := by
      rw [skip_eq, hm]
      rfl
    simp only [List.nil_append, run_format_members]
    rw [hskip, hl, hs]
    simp
  | cons p pre2 ih =>
    intro hpre
    have hrest : ∀ q ∈ pre2, selected excluded only q.name = true →
        env.launch "cargo" (fmtArgs q.name) = none ∧
        env.success "cargo" (fmtArgs q.name) = true :=
      fun q hq => hpre q (List.mem_cons_of_mem p hq)
    cases hps : selected excluded only p.name with
    | false =>
      have hskip : (excluded.contains p.name || (!only.isEmpty && !only.contains p.name)) = true := by
        rw [skip_eq, hps]
        rfl
      have hfil : List.filter (fun p => selected excluded only p.name) (p :: pre2)
          = List.filter (fun p => selected excluded only p.name) pre2 := by
        rw [List.filter_cons]
        simp [hps]
      rw [hfil, List.cons_append]
      simp only [run_format_members]
      rw [hskip]
      simp [ih hrest]
    | true =>
      rcases hpre p (List.mem_cons_self p pre2) hps with ⟨hlp, hsp⟩
      have hskip : (excluded.contains p.name || (!only.isEmpty && !only.contains p.name)) = false := by
        rw [skip_eq, hps]
        rfl
      have hfil : List.filter (fun p => selected excluded only p.name) (p :: pre2)
          = p :: List.filter (fun p => selected excluded only p.name) pre2 := by
        rw [List.filter_cons]
        simp [hps]
      rw [hfil, List.cons_append]
      simp only [run_format_members]
      rw [hskip, hlp, hsp]
      simp [ih hrest]

theorem run_lint_members_fail (env : Env) (excluded only : List String)
    (m : WorkspaceMember) (post : List WorkspaceMember)
    (hm : selected excluded only m.name = true)
    (hl : env.launch "cargo" (lintArgs m.name) = none)
    (hs : env.success "cargo" (lintArgs m.name) = false) :
    ∀ pre : List WorkspaceMember,
      (∀ p ∈ pre, selected excluded only p.name = true →
        env.launch "cargo" (lintArgs p.name) = none ∧
        env.success "cargo" (lintArgs p.name) = true) →
      run_lint_members env excluded only (pre ++ m :: post) =
        ((pre.filter (fun p => selected excluded only p.name)).map
            (fun p => Event.exec "cargo" (lintArgs p.name)) ++
          [Event.exec "cargo" (lintArgs m.name)],
         Except.error ("Lint fix execution failed for " ++ m.name)) := by
  intro pre
  induction pre with
  | nil =>
    intro _
    have hskip : (excluded.contains m.name || (!only.isEmpty && !only.contains m.name)) = false := by
      rw [skip_eq, hm]
      rfl
    simp only [List.nil_append, run_lint_members]
    rw [hskip, hl, hs]
    simp
  | cons p pre2 ih =>
    intro hpre
    have hrest : ∀ q ∈ pre2, selected excluded only q.name = true →
        env.launch "cargo" (lintArgs q.name) = none ∧
        env.success "cargo" (lintArgs q.name) = true :=
      fun q hq => hpre q (List.mem_cons_of_mem p hq)
    cases hps : selected excluded only p.name with
    | false =>
      have hskip : (excluded.contains p.name || (!only.isEmpty && !only.contains p.name)) = true := by
        rw [skip_eq, hps]
        rfl
      have hfil : List.filter (fun p => selected excluded only p.name) (p :: pre2)
          = List.filter (fun p => selected excluded only p.name) pre2 := by
        rw [List.filter_cons]
        simp [hps]
      rw [hfil, List.cons_append]
      simp only [run_lint_members]
      rw [hskip]
      simp [ih hrest]
    | true =>
      rcases hpre p (List.mem_cons_self p pre2) hps with ⟨hlp, hsp⟩
      have hskip : (excluded.contains p.name || (!only.isEmpty && !only.contains p.name)) = false := by
        rw [skip_eq, hps]
        rfl
      have hfil : List.filter (fun p => selected excluded only p.name) (p :: pre2)
          = p :: List.filter (fun p => selected excluded only p.name) pre2 := by
        rw [List.filter_cons]
        simp [hps]
      rw [hfil, List.cons_append]
      simp only [run_lint_members]
      rw [hskip, hlp, hsp]
      simp [ih hrest]

/-- C5: when the per-member external command exits with a non-zero status for a
selected member (all earlier selected members having succeeded), the format and
lint member loops return an error naming that member, having invoked the
command exactly for the earlier selected members and the failing member, and
never invoke the command for any later member. -/
theorem claim_C5 (env : Env) (excluded only : List String)
    (pre : List WorkspaceMember) (m : WorkspaceMember) (post : List WorkspaceMember) :
    ((∀ p ∈ pre, selected excluded only p.name = true →
        env.launch "cargo" (fmtArgs p.name) = none ∧
        env.success "cargo" (fmtArgs p.name) = true) →
      selected excluded only m.name = true →
      env.launch "cargo" (fmtArgs m.name) = none →
      env.success "cargo" (fmtArgs m.name) = false →
      run_format_members env excluded only (pre ++ m :: post) =
        ((pre.filter (fun p => selected excluded only p.name)).map
            (fun p => Event.exec "cargo" (fmtArgs p.name)) ++
          [Event.exec "cargo" (fmtArgs m.name)],
         Except.error ("Format check execution failed for " ++ m.name))) ∧
    ((∀ p ∈ pre, selected excluded only p.name = true →
        env.launch "cargo" (lintArgs p.name) = none ∧
        env.success "cargo" (lintArgs p.name) = true) →
      selected excluded only m.name = true →
      env.launch "cargo" (lintArgs m.name) = none →
      env.success "cargo" (lintArgs m.name) = false →
      run_lint_members env excluded only (pre ++ m :: post) =
        ((pre.filter (fun p => selected excluded only p.name)).map
            (fun p => Event.exec "cargo" (lintArgs p.name)) ++
          [Event.exec "cargo" (lintArgs m.name)],
         Except.error ("Lint fix execution failed for " ++ m.name))) :=
  ⟨fun hpre hm hl hs => run_format_members_fail env excluded only m post hm hl hs pre hpre,
   fun hpre hm hl hs => run_lint_members_fail env excluded only m post hm hl hs pre hpre⟩

theorem claim_C5_witness :
    run_format_members envFail [] []
        [WorkspaceMember.mk "alpha", WorkspaceMember.mk "beta", WorkspaceMember.mk "gamma"] =
      (([WorkspaceMember.mk "alpha"].filter (fun p => selected [] [] p.name)).map
          (fun p => Event.exec "cargo" (fmtArgs p.name)) ++
        [Event.exec "cargo" (fmtArgs "beta")],
       Except.error ("Format check execution failed for " ++ "beta")) :=
  (claim_C5 envFail [] [] [WorkspaceMember.mk "alpha"] (WorkspaceMember.mk "beta")
      [WorkspaceMember.mk "gamma"]).1
    (by decide) (by decide) rfl (by decide)

theorem tryForEach_events (P : Event → Prop) (xs : List α) (f : α → Run)
    (h : ∀ x ∈ xs, ∀ e ∈ (f x).1, P e) : ∀ e ∈ (tryForEach xs f).1, P e := by
  induction xs with
  | nil =>
    intro e he
    simp [tryForEach] at he
  | cons x xs ih =>
    intro e he
    rcases hfx : f x with ⟨t, r⟩
    cases r with
    | error er =>
      simp only [tryForEach, hfx] at he
      exact h x (List.mem_cons_self x xs) e (by rw [hfx]; exact he)
    | ok u =>
      simp only [tryForEach, hfx] at he
      rcases List.mem_append.mp he with h1 | h2
      · exact h x (List.mem_cons_self x xs) e (by rw [hfx]; exact h1)
      · exact ih (fun y hy => h y (List.mem_cons_of_mem x hy)) e h2

theorem run_format_members_events (env : Env) (excluded only : List String)
    (P : Event → Prop) (hP : ∀ name, P (Event.exec "cargo" (fmtArgs name))) :
    ∀ ms : List WorkspaceMember, ∀ e ∈ (run_format_members env excluded only ms).1, P e := by
  intro ms
  induction ms with
  | nil =>
    intro e he
    simp [run_format_members] at he
  | cons m rest ih =>
    intro e he
    simp only [run_format_members] at he
    cases hsk : (excluded.contains m.name || (!only.isEmpty && !only.contains m.name)) with
    | true =>
      rw [hsk] at he
      simp at he
      exact ih e he
    | false =>
      rw [hsk] at he
      cases hl : env.launch "cargo" (fmtArgs m.name) with
      | some er =>
        rw [hl] at he
        simp at he
        rw [he]
        exact hP m.name
      | none =>
        rw [hl] at he
        cases hs : env.success "cargo" (fmtArgs m.name) with
        | true =>
          rw [hs] at he
          simp at he
          rcases he with he | he
          · rw [he]
            exact hP m.name
          · exact ih e he
        | false =>
          rw [hs] at he
          simp at he
          rw [he]
          exact hP m.name

theorem run_lint_members_events (env : Env) (excluded only : List String)
    (P : Event → Prop) (hP : ∀ name, P (Event.exec "cargo" (lintArgs name))) :
    ∀ ms : List WorkspaceMember, ∀ e ∈ (run_lint_members env excluded only ms).1, P e := by
  intro ms
  induction ms with
  | nil =>
    intro e he
    simp [run_lint_members] at he
  | cons m rest ih =>
    intro e he
    simp only [run_lint_members] at he
    cases hsk : (excluded.contains m.name || (!only.isEmpty && !only.contains m.name)) with
    | true =>
      rw [hsk] at he
      simp at he
      exact ih e he
    | false =>
      rw [hsk] at he
      cases hl : env.launch "cargo" (lintArgs m.name) with
      | some er =>
        rw [hl] at he
        simp at he
        rw [he]
        exact hP m.name
      | none =>
        rw [hl] at he
        cases hs : env.success "cargo" (lintArgs m.name) with
        | true =>
          rw [hs] at he
          simp at he
          rcases he with he | he
          · rw [he]
            exact hP m.name
          · exact ih e he
        | false =>
          rw [hs] at he
          simp at he
          rw [he]
          exact hP m.name

theorem run_audit_ce_noPrompt (env : Env) (b : Bool) :
    ∀ e ∈ (run_audit_ce env (some b)).1, e.isPrompt = false := by
  intro e he
  simp only [run_audit_ce, resolveAnswer] at he
  cases b with
  | false => simp at he
  | true =>
    cases hi : env.install "cargo-audit" with
    | some er =>
      rw [hi] at he
      simp at he
      rw [he]
      rfl
    | none =>
      rw [hi] at he
      cases hl : env.launch "cargo" auditArgs with
      | some er =>
        rw [hl] at he
        simp at he
        rcases he with he | he <;> rw [he] <;> rfl
      | none =>
        rw [hl] at he
        cases hs : env.success "cargo" auditArgs with
        | true =>
          rw [hs] at he
          simp at he
          rcases he with he | he <;> rw [he] <;> rfl
        | false =>
          rw [hs] at he
          simp at he
          rcases he with he | he <;> rw [he] <;> rfl

theorem run_typos_ce_noPrompt (env : Env) (b : Bool) :
    ∀ e ∈ (run_typos_ce env (some b)).1, e.isPrompt = false := by
  intro e he
  simp only [run_typos_ce, resolveAnswer] at he
  cases b with
  | false => simp at he
  | true =>
    cases hi : env.install "typos-cli" with
    | some er =>
      rw [hi] at he
      simp at he
      rw [he]
      rfl
    | none =>
      rw [hi] at he
      cases hl : env.launch "typos" typosArgs with
      | some er =>
        rw [hl] at he
        simp at he
        rcases he with he | he <;> rw [he] <;> rfl
      | none =>
        rw [hl] at he
        cases hs : env.success "typos" typosArgs with
        | true =>
          rw [hs] at he
          simp at he
          rcases he with he | he <;> rw [he] <;> rfl
        | false =>
          rw [hs] at he
          simp at he
          rcases he with he | he <;> rw [he] <;> rfl

theorem run_format_t_noPrompt (env : Env) (excluded only : List String)
    (mt : WorkspaceMemberType) (word : String) (b : Bool) :
    ∀ e ∈ (run_format_t env excluded only mt word (some b)).1, e.isPrompt = false := by
  intro e he
  simp only [run_format_t, resolveAnswer] at he
  cases b with
  | false => simp at he
  | true =>
    simp at he
    exact run_format_members_events env excluded only (fun e => e.isPrompt = false)
      (fun _ => rfl) (env.members mt) e he

theorem run_lint_t_noPrompt (env : Env) (excluded only : List String)
    (mt : WorkspaceMemberType) (word : String) (b : Bool) :
    ∀ e ∈ (run_lint_t env excluded only mt word (some b)).1, e.isPrompt = false := by
  intro e he
  simp only [run_lint_t, resolveAnswer] at he
  cases b with
  | false => simp at he
  | true =>
    simp at he
    exact run_lint_members_events env excluded only (fun e => e.isPrompt = false)
      (fun _ => rfl) (env.members mt) e he

theorem run_audit_noPrompt (env : Env) (target : Target) (b : Bool) :
    ∀ e ∈ (run_audit env target (some b)).1, e.isPrompt = false := by
  cases target with
  | crates => exact run_audit_ce_noPrompt env b
  | examples => exact run_audit_ce_noPrompt env b
  | all =>
    intro e he
    simp only [run_audit, resolveAnswer, audit_filter_eq] at he
    refine tryForEach_events (fun e => e.isPrompt = false) [Target.crates] _ ?_ e he
    intro x hx
    simp at hx
    rw [hx]
    exact run_audit_ce_noPrompt env b

theorem run_typos_noPrompt (env : Env) (target : Target) (b : Bool) :
    ∀ e ∈ (run_typos env target (some b)).1, e.isPrompt = false := by
  cases target with
  | crates => exact run_typos_ce_noPrompt env b
  | examples => exact run_typos_ce_noPrompt env b
  | all =>
    intro e he
    simp only [run_typos, resolveAnswer, audit_filter_eq] at he
    refine tryForEach_events (fun e => e.isPrompt = false) [Target.crates] _ ?_ e he
    intro x hx
    simp at hx
    rw [hx]
    exact run_typos_ce_noPrompt env b

theorem run_format_noPrompt (env : Env) (excluded only : List String) (target : Target)
    (b : Bool) :
    ∀ e ∈ (run_format env excluded only target (some b)).1, e.isPrompt = false := by
  cases target with
  | crates => exact run_format_t_noPrompt env excluded only WorkspaceMemberType.crate "crates" b
  | examples =>
    exact run_format_t_noPrompt env excluded only WorkspaceMemberType.example "examples" b
  | all =>
    intro e he
    cases b with
    | false => simp [run_format, resolveAnswer] at he
    | true =>
      simp only [run_format, resolveAnswer, nonall_filter_eq] at he
      simp at he
      refine tryForEach_events (fun e => e.isPrompt = false) [Target.crates, Target.examples]
        _ ?_ e he
      intro x hx
      rcases List.mem_cons.mp hx with h1 | h1
      · rw [h1]
        exact run_format_t_noPrompt env excluded only WorkspaceMemberType.crate "crates" true
      · simp at h1
        rw [h1]
        exact run_format_t_noPrompt env excluded only WorkspaceMemberType.example "examples" true

theorem run_lint_noPrompt (env : Env) (excluded only : List String) (target : Target)
    (b : Bool) :
    ∀ e ∈ (run_lint env excluded only target (some b)).1, e.isPrompt = false := by
  cases target with
  | crates => exact run_lint_t_noPrompt env excluded only WorkspaceMemberType.crate "crates" b
  | examples =>
    exact run_lint_t_noPrompt env excluded only WorkspaceMemberType.example "examples" b
  | all =>
    intro e he
    cases b with
    | false => simp [run_lint, resolveAnswer] at he
    | true =>
      simp only [run_lint, resolveAnswer, nonall_filter_eq] at he
      simp at he
      refine tryForEach_events (fun e => e.isPrompt = false) [Target.crates, Target.examples]
        _ ?_ e he
      intro x hx
      rcases List.mem_cons.mp hx with h1 | h1
      · rw [h1]
        exact run_lint_t_noPrompt env excluded only WorkspaceMemberType.crate "crates" true
      · simp at h1
        rw [h1]
        exact run_lint_t_noPrompt env excluded only WorkspaceMemberType.example "examples" true

theorem run_audit_some_false (env : Env) (target : Target) :
    run_audit env target (some false) = ([], Except.ok ()) := by
  cases target with
  | crates => rfl
  | examples => rfl
  | all =>
    simp [run_audit, resolveAnswer, audit_filter_eq, tryForEach, run_audit_ce]

theorem run_typos_some_false (env : Env) (target : Target) :
    run_typos env target (some false) = ([], Except.ok ()) := by
  cases target with
  | crates => rfl
  | examples => rfl
  | all =>
    simp [run_typos, resolveAnswer, audit_filter_eq, tryForEach, run_typos_ce]

theorem run_format_some_false (env : Env) (excluded only : List String) (target : Target) :
    run_format env excluded only target (some false) = ([], Except.ok ()) := by
  cases target with
  | crates => rfl
  | examples => rfl
  | all => rfl

theorem run_lint_some_false (env : Env) (excluded only : List String) (target : Target) :
    run_lint env excluded only target (some false) = ([], Except.ok ()) := by
  cases target with
  | crates => rfl
  | examples => rfl
  | all => rfl

theorem run_audit_none_spec (env : Env) (hask : ∀ msg, env.ask msg = false) (target : Target) :
    (run_audit env target none).2 = Except.ok () ∧
    ∀ e ∈ (run_audit env target none).1, e.isExternal = false := by
  cases target with
  | crates =>
    simp only [run_audit, run_audit_ce, resolveAnswer]
    rw [hask]
    refine ⟨rfl, ?_⟩
    intro e he
    simp at he
    rw [he]
    rfl
  | examples =>
    simp only [run_audit, run_audit_ce, resolveAnswer]
    rw [hask]
    refine ⟨rfl, ?_⟩
    intro e he
    simp at he
    rw [he]
    rfl
  | all =>
    simp only [run_audit, resolveAnswer, audit_filter_eq]
    rw [hask]
    constructor
    · simp [tryForEach, run_audit_ce, resolveAnswer]
    · intro e he
      simp [tryForEach, run_audit_ce, resolveAnswer] at he
      rw [he]
      rfl

theorem run_typos_none_spec (env : Env) (hask : ∀ msg, env.ask msg = false) (target : Target) :
    (run_typos env target none).2 = Except.ok () ∧
    ∀ e ∈ (run_typos env target none).1, e.isExternal = false := by
  cases target with
  | crates =>
    simp only [run_typos, run_typos_ce, resolveAnswer]
    rw [hask]
    refine ⟨rfl, ?_⟩
    intro e he
    simp at he
    rw [he]
    rfl
  | examples =>
    simp only [run_typos, run_typos_ce, resolveAnswer]
    rw [hask]
    refine ⟨rfl, ?_⟩
    intro e he
    simp at he
    rw [he]
    rfl
  | all =>
    simp only [run_typos, resolveAnswer, audit_filter_eq]
    rw [hask]
    constructor
    · simp [tryForEach, run_typos_ce, resolveAnswer]
    · intro e he
      simp [tryForEach, run_typos_ce, resolveAnswer] at he
      rw [he]
      rfl

theorem run_format_none_spec (env : Env) (hask : ∀ msg, env.ask msg = false)
    (excluded only : List String) (target : Target) :
    (run_format env excluded only target none).2 = Except.ok () ∧
    ∀ e ∈ (run_format env excluded only target none).1, e.isExternal = false := by
  cases target with
  | crates =>
    simp only [run_format, run_format_t, resolveAnswer]
    rw [hask]
    refine ⟨rfl, ?_⟩
    intro e he
    simp at he
    rw [he]
    rfl
  | examples =>
    simp only [run_format, run_format_t, resolveAnswer]
    rw [hask]
    refine ⟨rfl, ?_⟩
    intro e he
    simp at he
    rw [he]
    rfl
  | all =>
    simp only [run_format, resolveAnswer]
    rw [hask]
    refine ⟨rfl, ?_⟩
    intro e he
    simp at he
    rw [he]
    rfl

theorem run_lint_none_spec (env : Env) (hask : ∀ msg, env.ask msg = false)
    (excluded only : List String) (target : Target) :
    (run_lint env excluded only target none).2 = Except.ok () ∧
    ∀ e ∈ (run_lint env excluded only target none).1, e.isExternal = false := by
  cases target with
  | crates =>
    simp only [run_lint, run_lint_t, resolveAnswer]
    rw [hask]
    refine ⟨rfl, ?_⟩
    intro e he
    simp at he
    rw [he]
    rfl
  | examples =>
    simp only [run_lint, run_lint_t, resolveAnswer]
    rw [hask]
    refine ⟨rfl, ?_⟩
    intro e he
    simp at he
    rw [he]
    rfl
  | all =>
    simp only [run_lint, resolveAnswer]
    rw [hask]
    refine ⟨rfl, ?_⟩
    intro e he
    simp at he
    rw [he]
    rfl

/-- C8: for every check sub-command and every target, a confirmation answer of
`Some(false)` makes the function return `Ok(())` with no prompt and no external
invocation; with any `Some` answer no confirmation prompt is ever issued by the
call or its recursive sub-calls; and when the answer is obtained from the
prompt and is negative (`ask_once` answering no), the function still returns
`Ok(())` and performs no external invocation. -/
theorem claim_C8 (env : Env) (excluded only : List String) (target : Target) :
    (run_audit env target (some false) = ([], Except.ok ()) ∧
     run_format env excluded only target (some false) = ([], Except.ok ()) ∧
     run_lint env excluded only target (some false) = ([], Except.ok ()) ∧
     run_typos env target (some false) = ([], Except.ok ())) ∧
    (∀ b : Bool,
      (∀ e ∈ (run_audit env target (some b)).1, e.isPrompt = false) ∧
      (∀ e ∈ (run_format env excluded only target (some b)).1, e.isPrompt = false) ∧
      (∀ e ∈ (run_lint env excluded only target (some b)).1, e.isPrompt = false) ∧
      (∀ e ∈ (run_typos env target (some b)).1, e.isPrompt = false)) ∧
    ((∀ msg, env.ask msg = false) →
      ((run_audit env target none).2 = Except.ok () ∧
        ∀ e ∈ (run_audit env target none).1, e.isExternal = false) ∧
      ((run_format env excluded only target none).2 = Except.ok () ∧
        ∀ e ∈ (run_format env excluded only target none).1, e.isExternal = false) ∧
      ((run_lint env excluded only target none).2 = Except.ok () ∧
        ∀ e ∈ (run_lint env excluded only target none).1, e.isExternal = false) ∧
      ((run_typos env target none).2 = Except.ok () ∧
        ∀ e ∈ (run_typos env target none).1, e.isExternal = false)) := by
  refine ⟨⟨run_audit_some_false env target, run_format_some_false env excluded only target,
    run_lint_some_false env excluded only target, run_typos_some_false env target⟩,
    fun b => ⟨run_audit_noPrompt env target b, run_format_noPrompt env excluded only target b,
      run_lint_noPrompt env excluded only target b, run_typos_noPrompt env target b⟩,
    fun hask => ⟨run_audit_none_spec env hask target,
      run_format_none_spec env hask excluded only target,
      run_lint_none_spec env hask excluded only target,
      run_typos_none_spec env hask target⟩⟩

theorem claim_C8_witness :
    (run_audit envNo Target.all none).2 = Except.ok () ∧
    run_format envNo [] [] Target.all (some false) = ([], Except.ok ()) :=
  ⟨((claim_C8 envNo [] [] Target.all).2.2 (fun _ => rfl)).1.1,
   (claim_C8 envNo [] [] Target.all).1.2.1⟩

theorem tryForEach_ok (xs : List α) (f : α → Run)
    (h : ∀ x ∈ xs, (f x).2 = Except.ok ()) : (tryForEach xs f).2 = Except.ok () := by
  induction xs with
  | nil => rfl
  | cons x xs ih =>
    rcases hfx : f x with ⟨t, r⟩
    have hx := h x (List.mem_cons_self x xs)
    rw [hfx] at hx
    simp at hx
    subst hx
    simp only [tryForEach, hfx]
    exact ih (fun y hy => h y (List.mem_cons_of_mem x hy))

theorem run_audit_ce_noFail (env : Env) (hnf : NoFail env) (answer : Option Bool) :
    (run_audit_ce env answer).2 = Except.ok () := by
  rcases answer with _ | b
  · simp only [run_audit_ce, resolveAnswer]
    cases ha : env.ask "This will run the audit check with autofix mode enabled." with
    | false => simp
    | true => simp [hnf.1, hnf.2.1, hnf.2.2]
  · cases b with
    | false => simp [run_audit_ce, resolveAnswer]
    | true => simp [run_audit_ce, resolveAnswer, hnf.1, hnf.2.1, hnf.2.2]

theorem run_typos_ce_noFail (env : Env) (hnf : NoFail env) (answer : Option Bool) :
    (run_typos_ce env answer).2 = Except.ok () := by
  rcases answer with _ | b
  · simp only [run_typos_ce, resolveAnswer]
    cases ha : env.ask "This will look for typos in the source code check and auto-fix them." with
    | false => simp
    | true => simp [hnf.1, hnf.2.1, hnf.2.2]
  · cases b with
    | false => simp [run_typos_ce, resolveAnswer]
    | true => simp [run_typos_ce, resolveAnswer, hnf.1, hnf.2.1, hnf.2.2]

theorem run_format_t_noFail (env : Env) (hnf : NoFail env) (excluded only : List String)
    (mt : WorkspaceMemberType) (word : String) (answer : Option Bool) :
    (run_format_t env excluded only mt word answer).2 = Except.ok () := by
  rcases answer with _ | b
  · simp only [run_format_t, resolveAnswer]
    cases ha : env.ask ("This will run format checks on all " ++ word ++ " of the workspace.") with
    | false => simp
    | true => simp [run_format_members_noFail env hnf]
  · cases b with
    | false => simp [run_format_t, resolveAnswer]
    | true => simp [run_format_t, resolveAnswer, run_format_members_noFail env hnf]

theorem run_lint_t_noFail (env : Env) (hnf : NoFail env) (excluded only : List String)
    (mt : WorkspaceMemberType) (word : String) (answer : Option Bool) :
    (run_lint_t env excluded only mt word answer).2 = Except.ok () := by
  rcases answer with _ | b
  · simp only [run_lint_t, resolveAnswer]
    cases ha : env.ask ("This will run lint fix on all " ++ word ++ " of the workspace.") with
    | false => simp
    | true => simp [run_lint_members_noFail env hnf]
  · cases b with
    | false => simp [run_lint_t, resolveAnswer]
    | true => simp [run_lint_t, resolveAnswer, run_lint_members_noFail env hnf]

theorem run_audit_noFail (env : Env) (hnf : NoFail env) (target : Target)
    (answer : Option Bool) : (run_audit env target answer).2 = Except.ok () := by
  cases target with
  | crates => exact run_audit_ce_noFail env hnf answer
  | examples => exact run_audit_ce_noFail env hnf answer
  | all =>
    simp only [run_audit, audit_filter_eq]
    refine tryForEach_ok [Target.crates] _ ?_
    intro x hx
    simp at hx
    rw [hx]
    exact run_audit_ce_noFail env hnf _

theorem run_typos_noFail (env : Env) (hnf : NoFail env) (target : Target)
    (answer : Option Bool) : (run_typos env target answer).2 = Except.ok () := by
  cases target with
  | crates => exact run_typos_ce_noFail env hnf answer
  | examples => exact run_typos_ce_noFail env hnf answer
  | all =>
    simp only [run_typos, audit_filter_eq]
    refine tryForEach_ok [Target.crates] _ ?_
    intro x hx
    simp at hx
    rw [hx]
    exact run_typos_ce_noFail env hnf _

theorem run_format_noFail (env : Env) (hnf : NoFail env) (excluded only : List String)
    (target : Target) (answer : Option Bool) :
    (run_format env excluded only target answer).2 = Except.ok () := by
  cases target with
  | crates => exact run_format_t_noFail env hnf excluded only WorkspaceMemberType.crate "crates" answer
  | examples =>
    exact run_format_t_noFail env hnf excluded only WorkspaceMemberType.example "examples" answer
  | all =>
    have hok : ∀ b : Bool,
        (tryForEach [Target.crates, Target.examples]
          (fun t =>
            match t with
            | Target.crates =>
              run_format_t env excluded only WorkspaceMemberType.crate "crates" (some b)
            | Target.examples =>
              run_format_t env excluded only WorkspaceMemberType.example "examples" (some b)
            | Target.all => ([], Except.ok ()))).2 = Except.ok () := by
      intro b
      refine tryForEach_ok _ _ ?_
      intro x hx
      rcases List.mem_cons.mp hx with h1 | h1
      · rw [h1]
        exact run_format_t_noFail env hnf excluded only WorkspaceMemberType.crate "crates" _
      · simp at h1
        rw [h1]
        exact run_format_t_noFail env hnf excluded only WorkspaceMemberType.example "examples" _
    rcases answer with _ | b
    · simp only [run_format, resolveAnswer, nonall_filter_eq]
      cases ha : env.ask "This will run format check on all members of the workspace." with
      | false => simp
      | true => simp [hok]
    · cases b with
      | false => simp [run_format, resolveAnswer]
      | true => simp [run_format, resolveAnswer, nonall_filter_eq, hok]

theorem run_lint_noFail (env : Env) (hnf : NoFail env) (excluded only : List String)
    (target : Target) (answer : Option Bool) :
    (run_lint env excluded only target answer).2 = Except.ok () := by
  cases target with
  | crates => exact run_lint_t_noFail env hnf excluded only WorkspaceMemberType.crate "crates" answer
  | examples =>
    exact run_lint_t_noFail env hnf excluded only WorkspaceMemberType.example "examples" answer
  | all =>
    have hok : ∀ b : Bool,
        (tryForEach [Target.crates, Target.examples]
          (fun t =>
            match t with
            | Target.crates =>
              run_lint_t env excluded only WorkspaceMemberType.crate "crates" (some b)
            | Target.examples =>
              run_lint_t env excluded only WorkspaceMemberType.example "examples" (some b)
            | Target.all => ([], Except.ok ()))).2 = Except.ok () := by
      intro b
      refine tryForEach_ok _ _ ?_
      intro x hx
      rcases List.mem_cons.mp hx with h1 | h1
      · rw [h1]
        exact run_lint_t_noFail env hnf excluded only WorkspaceMemberType.crate "crates" _
      · simp at h1
        rw [h1]
        exact run_lint_t_noFail env hnf excluded only WorkspaceMemberType.example "examples" _
    rcases answer with _ | b
    · simp only [run_lint, resolveAnswer, nonall_filter_eq]
      cases ha : env.ask "This will run lint fix on all members of the workspace." with
      | false => simp
      | true => simp [hok]
    · cases b with
      | false => simp [run_lint, resolveAnswer]
      | true => simp [run_lint, resolveAnswer, nonall_filter_eq, hok]

theorem handle_base_noFail (env : Env) (hnf : NoFail env) (args : CheckCmdArgs)
    (answer : Option Bool) : (handle_base env args answer).2 = Except.ok () := by
  rcases args with ⟨t, excluded, only, cmd⟩
  cases cmd with
  | audit => exact run_audit_noFail env hnf t answer
  | format => exact run_format_noFail env hnf excluded only t answer
  | lint => exact run_lint_noFail env hnf excluded only t answer
  | typos => exact run_typos_noFail env hnf t answer
  | all => rfl

theorem handle_command_noFail (env : Env) (hnf : NoFail env) (args : CheckCmdArgs)
    (answer : Option Bool) : (handle_command env args answer).2 = Except.ok () := by
  rcases args with ⟨t, excluded, only, cmd⟩
  cases cmd with
  | audit => exact run_audit_noFail env hnf t answer
  | format => exact run_format_noFail env hnf excluded only t answer
  | lint => exact run_lint_noFail env hnf excluded only t answer
  | typos => exact run_typos_noFail env hnf t answer
  | all =>
    show (tryForEach _ _).2 = Except.ok ()
    exact tryForEach_ok _ _ (fun c _ => handle_base_noFail env hnf _ _)

/-- C6: when no external step fails, every check invocation (including the
aggregate) returns `Ok(())`, so the only error outcomes are failures of
external tool invocation; a failure to launch the executable is returned as an
error wrapping the launch failure in a human-readable message, and a non-zero
exit status is returned as an error with a human-readable message (shown here
for audit, typos, and the format/lint member loops); and every sub-command's
result propagates unchanged through `handle_command` to the caller. -/
theorem claim_C6 (env : Env) :
    (NoFail env → ∀ (args : CheckCmdArgs) (answer : Option Bool),
      (handle_command env args answer).2 = Except.ok ()) ∧
    (∀ le, env.install "cargo-audit" = none → env.launch "cargo" auditArgs = some le →
      (run_audit env Target.crates (some true)).2 =
        Except.error ("Failed to execute cargo audit: " ++ le)) ∧
    (env.install "cargo-audit" = none → env.launch "cargo" auditArgs = none →
      env.success "cargo" auditArgs = false →
      (run_audit env Target.crates (some true)).2 =
        Except.error "Audit check execution failed") ∧
    (∀ le, env.install "typos-cli" = none → env.launch "typos" typosArgs = some le →
      (run_typos env Target.crates (some true)).2 =
        Except.error ("Failed to execute typos: " ++ le)) ∧
    (env.install "typos-cli" = none → env.launch "typos" typosArgs = none →
      env.success "typos" typosArgs = false →
      (run_typos env Target.crates (some true)).2 =
        Except.error "Some typos have been found and cannot be fixed.") ∧
    (∀ (excluded only : List String) (m : WorkspaceMember) (rest : List WorkspaceMember) le,
      selected excluded only m.name = true →
      env.launch "cargo" (fmtArgs m.name) = some le →
      (run_format_members env excluded only (m :: rest)).2 =
        Except.error ("Failed to execute cargo fmt: " ++ le)) ∧
    (∀ (excluded only : List String) (m : WorkspaceMember) (rest : List WorkspaceMember) le,
      selected excluded only m.name = true →
      env.launch "cargo" (lintArgs m.name) = some le →
      (run_lint_members env excluded only (m :: rest)).2 =
        Except.error ("Failed to execute cargo clippy: " ++ le)) ∧
    (∀ (t : Target) (excluded only : List String) (answer : Option Bool),
      handle_command env (CheckCmdArgs.mk t excluded only CheckCommand.audit) answer =
        run_audit env t answer ∧
      handle_command env (CheckCmdArgs.mk t excluded only CheckCommand.format) answer =
        run_format env excluded only t answer ∧
      handle_command env (CheckCmdArgs.mk t excluded only CheckCommand.lint) answer =
        run_lint env excluded only t answer ∧
      handle_command env (CheckCmdArgs.mk t excluded only CheckCommand.typos) answer =
        run_typos env t answer) := by
  refine ⟨fun hnf args answer => handle_command_noFail env hnf args answer,
    ?_, ?_, ?_, ?_, ?_, ?_,
    fun t excluded only answer => ⟨rfl, rfl, rfl, rfl⟩⟩
  · intro le hi hl
    simp only [run_audit, run_audit_ce, resolveAnswer]
    rw [hi, hl]
    simp
  · intro hi hl hs
    simp only [run_audit, run_audit_ce, resolveAnswer]
    rw [hi, hl, hs]
    simp
  · intro le hi hl
    simp only [run_typos, run_typos_ce, resolveAnswer]
    rw [hi, hl]
    simp
  · intro hi hl hs
    simp only [run_typos, run_typos_ce, resolveAnswer]
    rw [hi, hl, hs]
    simp
  · intro excluded only m rest le hm hl
    have hskip : (excluded.contains m.name || (!only.isEmpty && !only.contains m.name)) = false := by
      rw [skip_eq, hm]
      rfl
    simp only [run_format_members]
    rw [hskip, hl]
    simp
  · intro excluded only m rest le hm hl
    have hskip : (excluded.contains m.name || (!only.isEmpty && !only.contains m.name)) = false := by
      rw [skip_eq, hm]
      rfl
    simp only [run_lint_members]
    rw [hskip, hl]
    simp

theorem claim_C6_witness :
    (handle_command env0 (CheckCmdArgs.mk Target.all [] [] CheckCommand.all) none).2 =
      Except.ok () :=
  (claim_C6 env0).1 ⟨fun _ => rfl, fun _ _ => rfl, fun _ _ => rfl⟩
    (CheckCmdArgs.mk Target.all [] [] CheckCommand.all) none

end Xtask
